import Mathlib

/-!
Verification development for the "rizzler" audio-relay repository.

The relay sits between a browser client and an upstream streaming speech
service.  We embed, from the source:

* the audio framing codec (Int16 PCM → little-endian bytes → base64 and
  back to normalized floats) from `src/lib/websocket-client.js` /
  `src/server.js` / `src/unnamed/part_002`;
* the float→PCM16 clamping conversion (`float32ToPCM16`);
* the energy-based speech detector from `src/app/conversation/page.tsx`;
* the upstream-response translation (`handleGeminiMessage`) and the whole
  per-session relay state machine from `src/server.js`;
* the browser-side reconnect policy from `src/lib/websocket-client.js`.
-/

namespace Relay

/-! ## Audio framing codec

`pcm16ToBytes` models the byte layout of an `Int16Array` (little-endian
two's complement, as sent by `sendAudio` in `src/lib/websocket-client.js`),
`b64encodeBytes` the `Buffer.toString("base64")` call in
`handleClientAudioData` (`src/server.js`), `b64decodeChars` the `atob`
decoding loop and `bytesToFloats` the PCM16-to-float conversion of
`playAudioResponse` in `src/unnamed/part_002`:

    const sample = bytes[i * 2] | (bytes[i * 2 + 1] << 8)
    channelData[i] = sample < 0x8000 ? sample / 0x8000 : (sample - 0x10000) / 0x8000
-/

def b64char (n : Nat) : Nat :=
  if n < 26 then 65 + n
  else if n < 52 then 97 + (n - 26)
  else if n < 62 then 48 + (n - 52)
  else if n = 62 then 43
  else 47

def b64val (c : Nat) : Nat :=
  if 65 ≤ c ∧ c ≤ 90 then c - 65
  else if 97 ≤ c ∧ c ≤ 122 then c - 97 + 26
  else if 48 ≤ c ∧ c ≤ 57 then c - 48 + 52
  else if c = 43 then 62
  else 63

def b64encodeBytes : List Nat → List Nat
  | b0 :: b1 :: b2 :: rest =>
      b64char (b0 / 4) :: b64char (b0 % 4 * 16 + b1 / 16) ::
      b64char (b1 % 16 * 4 + b2 / 64) :: b64char (b2 % 64) :: b64encodeBytes rest
  | [b0, b1] => [b64char (b0 / 4), b64char (b0 % 4 * 16 + b1 / 16), b64char (b1 % 16 * 4), 61]
  | [b0] => [b64char (b0 / 4), b64char (b0 % 4 * 16), 61, 61]
  | [] => []

def b64decodeChars : List Nat → List Nat
  | c0 :: c1 :: c2 :: c3 :: rest =>
      if c2 = 61 then [b64val c0 * 4 + b64val c1 / 16]
      else if c3 = 61 then [b64val c0 * 4 + b64val c1 / 16, b64val c1 % 16 * 16 + b64val c2 / 4]
      else (b64val c0 * 4 + b64val c1 / 16) :: (b64val c1 % 16 * 16 + b64val c2 / 4) ::
           (b64val c2 % 4 * 64 + b64val c3) :: b64decodeChars rest
  | _ => []

theorem b64val_b64char : ∀ n, n < 64 → b64val (b64char n) = n := by decide

theorem b64char_ne_pad : ∀ n, n < 64 → b64char n ≠ 61 := by decide

theorem b64_roundtrip : ∀ bs : List Nat, (∀ b ∈ bs, b < 256) →
    b64decodeChars (b64encodeBytes bs) = bs
  | [], _ => rfl
  | [b0], h => by
      have hb0 : b0 < 256 := h b0 (by simp)
      simp only [b64encodeBytes, b64decodeChars]
      rw [b64val_b64char _ (by omega), b64val_b64char _ (by omega)]
      simp only [if_true]
      congr 1
      omega
  | [b0, b1], h => by
      have hb0 : b0 < 256 := h b0 (by simp)
      have hb1 : b1 < 256 := h b1 (by simp)
      simp only [b64encodeBytes, b64decodeChars]
      rw [if_neg (b64char_ne_pad _ (by omega))]
      simp only [if_true]
      rw [b64val_b64char _ (by omega), b64val_b64char _ (by omega),
        b64val_b64char _ (by omega)]
      congr 1
      · omega
      · congr 1
        omega
  | b0 :: b1 :: b2 :: rest, h => by
      have hb0 : b0 < 256 := h b0 (by simp)
      have hb1 : b1 < 256 := h b1 (by simp)
      have hb2 : b2 < 256 := h b2 (by simp)
      have ih := b64_roundtrip rest (fun b hb => h b (by simp [hb]))
      simp only [b64encodeBytes, b64decodeChars]
      rw [if_neg (b64char_ne_pad _ (by omega)), if_neg (b64char_ne_pad _ (by omega))]
      rw [b64val_b64char _ (by omega), b64val_b64char _ (by omega),
        b64val_b64char _ (by omega), b64val_b64char _ (by omega)]
      rw [ih]
      congr 1
      · omega
      · congr 1
        · omega
        · congr 1
          omega

/-- Little-endian two's-complement byte pair of one int16 sample, the layout
of an `Int16Array` buffer sent over the wire. -/
def int16ToBytes (s : Int) : List Nat :=
  [((s % 65536).toNat) % 256, ((s % 65536).toNat) / 256]

def pcm16ToBytes : List Int → List Nat
  | [] => []
  | s :: rest => int16ToBytes s ++ pcm16ToBytes rest

/-- One decoded sample of `playAudioResponse`: reinterpret the 16-bit value
and normalize by 32768. -/
def pcmSampleToFloat (u : Nat) : ℚ :=
  if u < 32768 then (u : ℚ) / 32768 else ((u : ℚ) - 65536) / 32768

def bytesToFloats : List Nat → List ℚ
  | b0 :: b1 :: rest => pcmSampleToFloat (b0 + b1 * 256) :: bytesToFloats rest
  | _ => []

theorem pcm16ToBytes_lt : ∀ ss : List Int, ∀ b ∈ pcm16ToBytes ss, b < 256
  | [], b, hb => by simp [pcm16ToBytes] at hb
  | s :: rest, b, hb => by
      simp only [pcm16ToBytes, int16ToBytes, List.mem_append, List.mem_cons,
        List.not_mem_nil, or_false] at hb
      rcases hb with (h | h) | h
      · subst h; omega
      · subst h
        have : (s % 65536).toNat < 65536 := by omega
        omega
      · exact pcm16ToBytes_lt rest b h

theorem sample_roundtrip (s : Int) (h1 : -32768 ≤ s) (h2 : s ≤ 32767) (tail : List Nat) :
    bytesToFloats (int16ToBytes s ++ tail) = (s : ℚ) / 32768 :: bytesToFloats tail := by
  simp only [int16ToBytes, List.cons_append, List.nil_append, bytesToFloats]
  have hu : ((s % 65536).toNat) % 256 + ((s % 65536).toNat) / 256 * 256 = (s % 65536).toNat := by
    omega
  rw [hu]
  congr 1
  rcases le_or_lt 0 s with hs | hs
  · have he : s % 65536 = s := by omega
    have hlt : (s % 65536).toNat < 32768 := by omega
    rw [pcmSampleToFloat, if_pos hlt]
    congr 1
    rw [he]
    exact_mod_cast congrArg (fun z : Int => (z : ℚ)) (Int.toNat_of_nonneg hs)
  · have he : s % 65536 = s + 65536 := by omega
    have hge : ¬ (s % 65536).toNat < 32768 := by omega
    rw [pcmSampleToFloat, if_neg hge]
    have hcast : (((s % 65536).toNat : ℤ) : ℚ) = ((s + 65536 : ℤ) : ℚ) := by
      rw [Int.toNat_of_nonneg (by omega)]
      rw [he]
    push_cast at hcast ⊢
    rw [hcast]
    ring

theorem pcm_roundtrip : ∀ ss : List Int, (∀ s ∈ ss, -32768 ≤ s ∧ s ≤ 32767) →
    bytesToFloats (pcm16ToBytes ss) = ss.map (fun s : Int => (s : ℚ) / 32768)
  | [], _ => rfl
  | s :: rest, h => by
      have hs := h s (by simp)
      rw [pcm16ToBytes, sample_roundtrip s hs.1 hs.2,
        pcm_roundtrip rest (fun x hx => h x (by simp [hx]))]
      rfl

/-- C4: round-trip of the audio codec.  For every sequence of in-range int16
samples, encoding to little-endian bytes and a base64 string, then decoding
for playback (bytes reinterpreted as 16-bit signed little-endian samples and
normalized by 32768), yields at each position exactly `s / 32768`, hence a
value within `1/32768` of `s / 32768`. -/
theorem c4_codec_roundtrip (ss : List Int) (h : ∀ s ∈ ss, -32768 ≤ s ∧ s ≤ 32767) :
    bytesToFloats (b64decodeChars (b64encodeBytes (pcm16ToBytes ss)))
      = ss.map (fun s : Int => (s : ℚ) / 32768) ∧
    ∀ (i : Nat) (h1 : i < (bytesToFloats (b64decodeChars (b64encodeBytes (pcm16ToBytes ss)))).length)
      (h2 : i < ss.length),
      |(bytesToFloats (b64decodeChars (b64encodeBytes (pcm16ToBytes ss))))[i] -
        ((ss[i] : ℚ)) / 32768| ≤ 1 / 32768 := by
  have e1 : b64decodeChars (b64encodeBytes (pcm16ToBytes ss)) = pcm16ToBytes ss :=
    b64_roundtrip _ (pcm16ToBytes_lt ss)
  have e2 : bytesToFloats (b64decodeChars (b64encodeBytes (pcm16ToBytes ss)))
      = ss.map (fun s : Int => (s : ℚ) / 32768) := by
    rw [e1]; exact pcm_roundtrip ss h
  refine ⟨e2, ?_⟩
  intro i h1 h2
  have h1' : i < (ss.map (fun s : Int => (s : ℚ) / 32768)).length := by
    rw [← e2]; exact h1
  have he : (bytesToFloats (b64decodeChars (b64encodeBytes (pcm16ToBytes ss))))[i]
      = (ss.map (fun s : Int => (s : ℚ) / 32768))[i] := List.getElem_of_eq e2 h1
  rw [he, List.getElem_map]
  simp

/-- Witness for C4 at a concrete sample list covering both extremes. -/
theorem c4_codec_roundtrip_witness :
    (∀ s ∈ [(1 : Int), -32768, 32767, 0], -32768 ≤ s ∧ s ≤ 32767) ∧
    bytesToFloats (b64decodeChars (b64encodeBytes (pcm16ToBytes [(1 : Int), -32768, 32767, 0])))
      = [(1 : Int), -32768, 32767, 0].map (fun s : Int => (s : ℚ) / 32768) :=
  ⟨by decide, (c4_codec_roundtrip [(1 : Int), -32768, 32767, 0] (by decide)).1⟩

/-! ## Outbound float→PCM16 conversion (`float32ToPCM16`, src/unnamed/part_002)

    const sample = Math.max(-1, Math.min(1, float32Array[i]))
    pcm16Array[i] = sample < 0 ? sample * 0x8000 : sample * 0x7fff

The assignment into an `Int16Array` truncates toward zero and wraps modulo
2^16 into the signed range; `int16Store` models that storage step. -/

def clamp1 (x : ℚ) : ℚ := max (-1) (min 1 x)

def truncToZero (q : ℚ) : Int := if 0 ≤ q then ⌊q⌋ else ⌈q⌉

def float32ToPCM16Sample (x : ℚ) : Int :=
  truncToZero (if clamp1 x < 0 then clamp1 x * 32768 else clamp1 x * 32767)

def int16Store (n : Int) : Int :=
  if n % 65536 < 32768 then n % 65536 else n % 65536 - 65536

def float32ToPCM16 (xs : List ℚ) : List Int :=
  xs.map (fun x => int16Store (float32ToPCM16Sample x))

theorem truncToZero_bounds (q : ℚ) (hlo : -32768 ≤ q) (hhi : q ≤ 32767) :
    -32768 ≤ truncToZero q ∧ truncToZero q ≤ 32767 := by
  unfold truncToZero
  split
  · constructor
    · exact Int.le_floor.2 (by exact_mod_cast hlo)
    · have : ⌊q⌋ < 32768 := Int.floor_lt.2 (by exact_mod_cast lt_of_le_of_lt hhi (by norm_num))
      omega
  · constructor
    · have : (-32769 : Int) < ⌈q⌉ :=
        Int.lt_ceil.2 (by exact_mod_cast lt_of_lt_of_le (by norm_num) hlo)
      omega
    · exact le_trans (Int.ceil_le.2 (by exact_mod_cast hhi)) (by norm_num)

/-- C9: the outbound encoding path clamps every sample before conversion: for
every input value, the int16 sample produced lies in [-32768, 32767], and the
`Int16Array` storage step is the identity on it (no wraparound); consequently
every element of `float32ToPCM16` of any input array is in range. -/
theorem c9_no_wraparound :
    (∀ x : ℚ, -32768 ≤ float32ToPCM16Sample x ∧ float32ToPCM16Sample x ≤ 32767 ∧
      int16Store (float32ToPCM16Sample x) = float32ToPCM16Sample x) ∧
    (∀ (xs : List ℚ) (y : Int), y ∈ float32ToPCM16 xs → -32768 ≤ y ∧ y ≤ 32767) := by
  have key : ∀ x : ℚ, -32768 ≤ float32ToPCM16Sample x ∧ float32ToPCM16Sample x ≤ 32767 := by
    intro x
    have hs1 : -1 ≤ clamp1 x := le_max_left _ _
    have hs2 : clamp1 x ≤ 1 := max_le (by norm_num) (min_le_left _ _)
    unfold float32ToPCM16Sample
    split
    · rename_i hneg
      refine truncToZero_bounds _ (by nlinarith) (by nlinarith)
    · rename_i hpos
      push_neg at hpos
      refine truncToZero_bounds _ (by nlinarith) (by nlinarith)
  have store_id : ∀ n : Int, -32768 ≤ n → n ≤ 32767 → int16Store n = n := by
    intro n h1 h2
    unfold int16Store
    omega
  refine ⟨fun x => ⟨(key x).1, (key x).2, store_id _ (key x).1 (key x).2⟩, ?_⟩
  intro xs y hy
  unfold float32ToPCM16 at hy
  rcases List.mem_map.1 hy with ⟨x, _, hx⟩
  rw [← hx, store_id _ (key x).1 (key x).2]
  exact key x

/-- Witness for C9 at a concrete out-of-range input (2.0 clamps to 1.0). -/
theorem c9_no_wraparound_witness :
    -32768 ≤ int16Store (float32ToPCM16Sample 2) ∧ int16Store (float32ToPCM16Sample 2) ≤ 32767 :=
  c9_no_wraparound.2 [2] (int16Store (float32ToPCM16Sample 2)) (by simp [float32ToPCM16])

/-! ## Energy-based speech detector

Embedded from `checkAudioLevel` inside `startInstantRealtimeMonitoring`
(`src/app/conversation/page.tsx`):

    setAudioLevel((prev) => prev * 0.8 + normalizedLevel * 0.2)
    const speechThreshold = 0.012
    const isSpeaking = normalizedLevel > speechThreshold
    if (isSpeaking && !speechDetected) { setSpeechDetected(true) ... }
    else if (!isSpeaking && speechDetected) { arm 800 ms silence timeout if not armed }
    else if (isSpeaking && speechDetected) { clear the armed silence timeout }

The threshold test uses the raw per-frame `normalizedLevel`; the smoothed
`audioLevel` state feeds only the visualization.  Timer deadlines are
abstracted: `silenceTimer` records whether the timeout is armed, and
`detectorTimerFire` is the timer callback (which can only run while armed). -/

def speechThreshold : ℚ := 12 / 1000

structure DetectorState where
  speechDetected : Bool
  silenceTimer : Bool
  audioLevel : ℚ
  deriving DecidableEq

/-- One animation-frame step of `checkAudioLevel`, fed the raw normalized
level of the current frame. -/
def detectorFrame (st : DetectorState) (level : ℚ) : DetectorState :=
  let smoothed := st.audioLevel * (8 / 10) + level * (2 / 10)
  let isSp : Bool := decide (level > speechThreshold)
  if isSp && !st.speechDetected then
    { speechDetected := true, silenceTimer := st.silenceTimer, audioLevel := smoothed }
  else if !isSp && st.speechDetected then
    { speechDetected := st.speechDetected, silenceTimer := true, audioLevel := smoothed }
  else if isSp && st.speechDetected then
    { speechDetected := st.speechDetected, silenceTimer := false, audioLevel := smoothed }
  else
    { speechDetected := st.speechDetected, silenceTimer := st.silenceTimer, audioLevel := smoothed }

/-- The armed 800 ms silence timeout fires: utterance ends. -/
def detectorTimerFire (st : DetectorState) : DetectorState :=
  { speechDetected := false, silenceTimer := false, audioLevel := st.audioLevel }

/-- Counterexample to C5 as stated: from the idle start state, a frame with
raw normalized level 0.013 transitions the detector to Speaking although the
smoothed level (0.0026 after the frame, 0 before) never exceeded the 0.012
threshold, so the Idle→Speaking transition is not governed by the smoothed
level. -/
theorem c5_counterexample :
    (detectorFrame ⟨false, false, 0⟩ (13 / 1000)).speechDetected = true ∧
    ¬ ((detectorFrame ⟨false, false, 0⟩ (13 / 1000)).audioLevel > speechThreshold) ∧
    ¬ ((0 : ℚ) > speechThreshold) := by
  refine ⟨?_, ?_, ?_⟩
  · norm_num [detectorFrame, speechThreshold]
  · norm_num [detectorFrame, speechThreshold]
  · norm_num [speechThreshold]

/-- C5 (amended): the detector transitions Idle→Speaking exactly when the raw
(instantaneous) normalized level of the current frame exceeds the threshold;
no frame ever takes Speaking back to Idle (only the silence timeout firing
does); a frame above threshold while the silence timeout is armed cancels it
and stays Speaking; a frame at or below threshold while Speaking arms it. -/
theorem c5_detector_amended :
    (∀ (st : DetectorState) (l : ℚ), st.speechDetected = false →
      ((detectorFrame st l).speechDetected = true ↔ l > speechThreshold)) ∧
    (∀ (st : DetectorState) (l : ℚ), st.speechDetected = true →
      (detectorFrame st l).speechDetected = true) ∧
    (∀ (st : DetectorState) (l : ℚ), st.speechDetected = true → l > speechThreshold →
      (detectorFrame st l).silenceTimer = false) ∧
    (∀ (st : DetectorState) (l : ℚ), st.speechDetected = true → ¬ (l > speechThreshold) →
      (detectorFrame st l).silenceTimer = true) ∧
    (∀ st : DetectorState, (detectorTimerFire st).speechDetected = false ∧
      (detectorTimerFire st).silenceTimer = false) := by
  refine ⟨?_, ?_, ?_, ?_, ?_⟩
  · intro st l hst
    unfold detectorFrame
    rcases hlt : decide (l > speechThreshold) with h | h <;>
      simp_all [decide_eq_true_eq, decide_eq_false_iff_not]
  · intro st l hst
    unfold detectorFrame
    rcases hlt : decide (l > speechThreshold) with h | h <;> simp_all
  · intro st l hst hl
    unfold detectorFrame
    have : decide (l > speechThreshold) = true := decide_eq_true hl
    simp_all
  · intro st l hst hl
    unfold detectorFrame
    have : decide (l > speechThreshold) = false := decide_eq_false hl
    simp_all
  · intro st
    exact ⟨rfl, rfl⟩

/-- Witness for C5 (amended) at concrete states and levels. -/
theorem c5_detector_amended_witness :
    ((detectorFrame ⟨false, false, 0⟩ (13 / 1000)).speechDetected = true ↔
      (13 / 1000 : ℚ) > speechThreshold) ∧
    (detectorFrame ⟨true, true, 0⟩ 1).silenceTimer = false :=
  ⟨c5_detector_amended.1 ⟨false, false, 0⟩ (13 / 1000) rfl,
   c5_detector_amended.2.2.1 ⟨true, true, 0⟩ 1 rfl (by norm_num [speechThreshold])⟩

/-! ## Upstream response translation (`handleGeminiMessage`, src/server.js)

    if (message.candidates && message.candidates[0]) {
      const candidate = message.candidates[0]
      if (candidate.content && candidate.content.parts) {
        for (const part of candidate.content.parts) {
          if (part.text) { ... type: "text_display" ... }
          if (part.inline_data && part.inline_data.mime_type === "audio/pcm") {
            ... type: "audio", data: decoded bytes, sampleRate: 24000, encoding: "LINEAR16" ... }
        }
      }
    }
    if (message.error) { ... type: "error" ... }

Only `message.candidates[0]` is ever inspected; a part may match both the
text test and the inline-data test.  JS truthiness makes an empty text
fragment fall through the `if (part.text)` test. -/

structure InlineData where
  mime_type : String
  data : List Nat
  deriving DecidableEq

structure GPart where
  text : Option String
  inline_data : Option InlineData
  deriving DecidableEq

structure GContent where
  parts : List GPart
  deriving DecidableEq

structure Candidate where
  content : Option GContent
  deriving DecidableEq

structure GeminiMsg where
  candidates : List Candidate
  error : Option String
  deriving DecidableEq

inductive ClientEvent where
  | status (message : String)
  | error (message : String)
  | textDisplay (data : String)
  | audio (data : List Nat) (sampleRate : Nat) (encoding : String)
  deriving DecidableEq

/-- Events produced for one content part (in source order: the text branch,
then the inline-audio branch). -/
def partEvents (p : GPart) : List ClientEvent :=
  (match p.text with
   | some t => if t = "" then [] else [ClientEvent.textDisplay t]
   | none => []) ++
  (match p.inline_data with
   | some d =>
       if d.mime_type = "audio/pcm" then
         [ClientEvent.audio (b64decodeChars d.data) 24000 "LINEAR16"]
       else []
   | none => [])

def partsEvents : List GPart → List ClientEvent
  | [] => []
  | p :: ps => partEvents p ++ partsEvents ps

def errEvents : Option String → List ClientEvent
  | some e => [ClientEvent.error ("Gemini error: " ++ e)]
  | none => []

def handleGeminiMessage (m : GeminiMsg) : List ClientEvent :=
  (match m.candidates with
   | c :: _ =>
       (match c.content with
        | some ct => partsEvents ct.parts
        | none => [])
   | [] => []) ++ errEvents m.error

/-- Counterexample to C8 as stated: a single part carrying both a text
fragment and an `audio/pcm` inline payload produces two outbound events, not
exactly one. -/
theorem c8_counterexample :
    (handleGeminiMessage
      { candidates := [{ content := some { parts :=
          [{ text := some "hi", inline_data := some { mime_type := "audio/pcm", data := [] } }] } }],
        error := none }).length = 2 := by
  decide

/-- C8 (amended): only the first candidate of an upstream response is
translated (later candidates contribute no events), and each part of that
candidate produces one `text_display` event iff it carries a nonempty text
fragment plus one `audio` event iff it carries inline data with mime type
`audio/pcm` — hence zero, one or two events per part, not exactly one. -/
theorem c8_translation_amended :
    (∀ (c1 c2 : Candidate) (rest : List Candidate) (err : Option String),
      handleGeminiMessage { candidates := c1 :: c2 :: rest, error := err } =
      handleGeminiMessage { candidates := [c1], error := err }) ∧
    (∀ p : GPart, (partEvents p).length =
      (match p.text with
       | some t => if t = "" then 0 else 1
       | none => 0) +
      (match p.inline_data with
       | some d => if d.mime_type = "audio/pcm" then 1 else 0
       | none => 0)) := by
  constructor
  · intro c1 c2 rest err
    rfl
  · intro p
    rcases p with ⟨t, idat⟩
    rcases t with _ | t <;> rcases idat with _ | idat
    · simp [partEvents]
    · simp only [partEvents]
      split <;> simp
    · simp only [partEvents]
      split <;> simp
    · simp only [partEvents, List.length_append]
      by_cases ht : t = "" <;> by_cases hm : idat.mime_type = "audio/pcm" <;>
        simp [ht, hm]

/-- C10: every `audio` event emitted by the upstream-response translation
carries the constant sample rate 24000 and the constant encoding tag
LINEAR16, whatever the upstream message contained. -/
theorem c10_audio_constants (m : GeminiMsg) (d : List Nat) (sr : Nat) (enc : String)
    (hmem : ClientEvent.audio d sr enc ∈ handleGeminiMessage m) :
    sr = 24000 ∧ enc = "LINEAR16" := by
  have part_case : ∀ p : GPart, ClientEvent.audio d sr enc ∈ partEvents p →
      sr = 24000 ∧ enc = "LINEAR16" := by
    intro p hp
    unfold partEvents at hp
    rcases List.mem_append.1 hp with h | h
    · split at h
      · split at h <;> simp at h
      · simp at h
    · split at h
      · split at h
        · simp at h
          exact ⟨h.2.1, h.2.2⟩
        · simp at h
      · simp at h
  have parts_case : ∀ ps : List GPart, ClientEvent.audio d sr enc ∈ partsEvents ps →
      sr = 24000 ∧ enc = "LINEAR16" := by
    intro ps
    induction ps with
    | nil => intro h; simp [partsEvents] at h
    | cons p ps ih =>
        intro h
        simp only [partsEvents] at h
        rcases List.mem_append.1 h with h | h
        · exact part_case p h
        · exact ih h
  unfold handleGeminiMessage at hmem
  rcases List.mem_append.1 hmem with h | h
  · split at h
    · split at h
      · exact parts_case _ h
      · simp at h
    · simp at h
  · unfold errEvents at h
    split at h <;> simp at h

/-- Concrete upstream message with one pure-audio part, used by the C10
witness. -/
def audioOnlyMsg : GeminiMsg :=
  { candidates := [{ content := some { parts :=
      [{ text := none, inline_data := some { mime_type := "audio/pcm", data := [] } }] } }],
    error := none }

/-- Witness for C10 at a concrete upstream message with one audio part. -/
theorem c10_audio_constants_witness :
    ClientEvent.audio [] 24000 "LINEAR16" ∈ handleGeminiMessage audioOnlyMsg ∧
    (24000 = 24000 ∧ "LINEAR16" = "LINEAR16") :=
  ⟨by decide, c10_audio_constants audioOnlyMsg [] 24000 "LINEAR16" (by decide)⟩

/-! ## Per-session relay state machine (`wss.on("connection")`, src/server.js)

Per-session closure state: `geminiWs` (current upstream socket handle,
modelled by a numeric id), `isGeminiConnected`, `sessionConfigured`,
`conversationContext`.  We additionally track, for whole-trace reasoning,
the set of upstream sockets ever created (`created` counts them, ids
`0 .. created-1`), which of them have opened and which have been closed, the
client socket's open state, and whether a `setTimeout(connectToGemini, 2000)`
reconnect timer is pending.

Events are the independently scheduled callbacks: a client message, an
upstream socket's open/close/error handler firing, the client close handler,
and the pending reconnect timer firing.  Outputs are sends on an upstream
socket and events sent to the client. -/

inductive ClientMsg where
  /-- A binary (non-JSON) frame; forwarded as audio only when longer than
  100 bytes (`data instanceof Buffer && data.length > 100`). -/
  | binary (bytes : List Nat)
  | connect
  /-- A JSON message `{type:"audio"}`; `data` is `some arr` when the payload
  is a numeric array, `none` otherwise. -/
  | audioJson (data : Option (List Nat))
  /-- A JSON message `{type:"text"}`; `data` is `some t` for a string payload
  (`""` is falsy in JS, handled in the step function). -/
  | textJson (data : Option String)
  /-- A JSON message with an unknown `type`. -/
  | other
  deriving DecidableEq

inductive UpstreamMsg where
  | setup
  | realtimeInput (b64 : List Nat)
  | clientContent (turns : List String)
  deriving DecidableEq

inductive Out where
  | upstreamSend (sock : Nat) (payload : UpstreamMsg)
  | clientEvent (e : ClientEvent)
  deriving DecidableEq

structure ServerState where
  clientOpen : Bool
  isGeminiConnected : Bool
  sessionConfigured : Bool
  conversationContext : List String
  geminiWs : Option Nat
  created : Nat
  openSet : List Nat
  closedSet : List Nat
  reconnectPending : Bool
  deriving DecidableEq

def initSession : ServerState :=
  { clientOpen := true, isGeminiConnected := false, sessionConfigured := false,
    conversationContext := [], geminiWs := none, created := 0, openSet := [],
    closedSet := [], reconnectPending := false }

/-- `connectToGemini()`: unconditionally creates a fresh upstream socket and
stores its handle in `geminiWs`. -/
def connectToGemini (s : ServerState) : ServerState × List Out :=
  ({ s with geminiWs := some s.created, created := s.created + 1 }, [])

/-- `handleClientAudioData`: silently dropped unless connected and
configured; otherwise base64-encode and forward one `realtime_input`
envelope upstream. -/
def handleClientAudioData (s : ServerState) (bytes : List Nat) : ServerState × List Out :=
  if s.isGeminiConnected && s.sessionConfigured then
    match s.geminiWs with
    | some w => (s, [Out.upstreamSend w (UpstreamMsg.realtimeInput (b64encodeBytes bytes))])
    | none => (s, [])
  else (s, [])

/-- `sendTextToGemini`: push the turn, keep the last 8 context entries, send
one `client_content` envelope. -/
def sendTextToGemini (s : ServerState) (t : String) : ServerState × List Out :=
  let ctx0 := s.conversationContext ++ [t]
  let ctx := if ctx0.length > 8 then ctx0.drop (ctx0.length - 8) else ctx0
  match s.geminiWs with
  | some w => ({ s with conversationContext := ctx },
      [Out.upstreamSend w (UpstreamMsg.clientContent ctx)])
  | none => ({ s with conversationContext := ctx }, [])

/-- The `clientWs.on("message")` handler. -/
def stepClientMsg (s : ServerState) (m : ClientMsg) : ServerState × List Out :=
  match m with
  | ClientMsg.binary bytes =>
      if bytes.length > 100 then handleClientAudioData s bytes else (s, [])
  | ClientMsg.connect =>
      if !s.isGeminiConnected then connectToGemini s
      else (s, [Out.clientEvent (ClientEvent.status "Already connected to Gemini")])
  | ClientMsg.audioJson (some arr) => handleClientAudioData s arr
  | ClientMsg.audioJson none => (s, [])
  | ClientMsg.textJson (some t) =>
      if s.isGeminiConnected && s.sessionConfigured && !(t = "") then sendTextToGemini s t
      else (s, [])
  | ClientMsg.textJson none => (s, [])
  | ClientMsg.other => (s, [])

inductive Ev where
  | client (m : ClientMsg)
  /-- The `open` handler of upstream socket `i` fires. -/
  | geminiOpen (i : Nat)
  /-- The `close` handler of upstream socket `i` fires with the given close
  code (`handleGeminiClose`; the code is never inspected by the handler). -/
  | geminiClose (i : Nat) (code : Nat)
  /-- `handleGeminiError`. -/
  | geminiError
  /-- The `clientWs.on("close")` handler. -/
  | clientClose
  /-- The pending `setTimeout(connectToGemini, 2000)` fires. -/
  | reconnectFire
  deriving DecidableEq

/-- One scheduled callback of the session, as in src/server.js.  The 500 ms
"session ready" status delay and the 2 s reconnect delay are abstracted into
event ordering. -/
def stepEv (s : ServerState) (e : Ev) : ServerState × List Out :=
  match e with
  | Ev.client m => stepClientMsg s m
  | Ev.geminiOpen i =>
      let s1 := { s with isGeminiConnected := true, openSet := s.openSet.insert i }
      match s.geminiWs with
      | some w =>
          ({ s1 with sessionConfigured := true },
            [Out.upstreamSend w UpstreamMsg.setup,
             Out.clientEvent (ClientEvent.status "Connected to Gemini Live API"),
             Out.clientEvent (ClientEvent.status "Gemini session ready for audio streaming")])
      | none => (s1, [Out.clientEvent (ClientEvent.status "Connected to Gemini Live API")])
  | Ev.geminiClose i _ =>
      let s1 := { s with
        isGeminiConnected := false
        sessionConfigured := false
        closedSet := s.closedSet.insert i }
      if s.clientOpen then
        ({ s1 with reconnectPending := true },
          [Out.clientEvent (ClientEvent.status "Gemini connection closed - attempting reconnect...")])
      else (s1, [])
  | Ev.geminiError => ({ s with isGeminiConnected := false }, [])
  | Ev.clientClose =>
      if s.isGeminiConnected then
        match s.geminiWs with
        | some w => ({ s with clientOpen := false, closedSet := s.closedSet.insert w }, [])
        | none => ({ s with clientOpen := false }, [])
      else ({ s with clientOpen := false }, [])
  | Ev.reconnectFire => connectToGemini { s with reconnectPending := false }

/-- Scheduler enabledness of an event in a state. -/
def enabledB (s : ServerState) (e : Ev) : Bool :=
  match e with
  | Ev.client _ => s.clientOpen
  | Ev.geminiOpen i =>
      decide (i < s.created) && !(s.openSet.contains i) && !(s.closedSet.contains i)
  | Ev.geminiClose i _ => decide (i < s.created) && !(s.closedSet.contains i)
  | Ev.geminiError => s.geminiWs.isSome
  | Ev.clientClose => s.clientOpen
  | Ev.reconnectFire => s.reconnectPending

def runEvents (s : ServerState) : List Ev → ServerState
  | [] => s
  | e :: es => runEvents (stepEv s e).1 es

def enabledRunB (s : ServerState) : List Ev → Bool
  | [] => true
  | e :: es => enabledB s e && enabledRunB (stepEv s e).1 es

/-- Upstream sockets created for the session and never closed. -/
def liveUpstreams (s : ServerState) : List Nat :=
  (List.range s.created).filter (fun i => !(s.closedSet.contains i))

/-- Audio-frame transport shapes: a binary frame, or a JSON `audio` message. -/
def isAudioFrame : ClientMsg → Prop
  | ClientMsg.binary _ => True
  | ClientMsg.audioJson _ => True
  | _ => False

/-- C1: an audio frame (binary frame or JSON `audio` message) delivered while
the session is not both upstream-connected and upstream-configured is
silently dropped: the state is unchanged and no output at all — in
particular no upstream send and no client `error` event — is produced. -/
theorem c1_audio_dropped (s : ServerState) (m : ClientMsg) (hm : isAudioFrame m)
    (hready : ¬ (s.isGeminiConnected = true ∧ s.sessionConfigured = true)) :
    stepClientMsg s m = (s, []) := by
  have hand : (s.isGeminiConnected && s.sessionConfigured) = false := by
    cases hc : s.isGeminiConnected <;> cases hf : s.sessionConfigured <;> simp_all
  cases m with
  | binary bytes =>
      simp only [stepClientMsg]
      split
      · simp [handleClientAudioData, hand]
      · rfl
  | audioJson d =>
      cases d with
      | some arr => simp [stepClientMsg, handleClientAudioData, hand]
      | none => rfl
  | connect => exact hm.elim
  | textJson d => exact hm.elim
  | other => exact hm.elim

/-- Witness for C1: a JSON audio frame in the initial (unconnected) state. -/
theorem c1_audio_dropped_witness :
    isAudioFrame (ClientMsg.audioJson (some [1, 2, 3])) ∧
    ¬ (initSession.isGeminiConnected = true ∧ initSession.sessionConfigured = true) ∧
    stepClientMsg initSession (ClientMsg.audioJson (some [1, 2, 3])) = (initSession, []) :=
  ⟨trivial, by decide,
   c1_audio_dropped initSession (ClientMsg.audioJson (some [1, 2, 3])) trivial (by decide)⟩

/-! ## Connection acceptance (`wss.on("connection")`, src/server.js)

The API-key check runs before anything else; the initial status message is
only sent when the key is present:

    const GEMINI_API_KEY = process.env.GEMINI_API_KEY
    if (!GEMINI_API_KEY) {
      clientWs.send(JSON.stringify({ type: "error",
        message: "Server configuration error: Missing Gemini API key" }))
      clientWs.close()
      return
    }
-/

structure AcceptResult where
  events : List ClientEvent
  closedImmediately : Bool
  session : Option ServerState
  deriving DecidableEq

def acceptConnection : Option String → AcceptResult
  | none =>
      { events := [ClientEvent.error "Server configuration error: Missing Gemini API key"],
        closedImmediately := true, session := none }
  | some _ =>
      { events := [ClientEvent.status
          "Connected to AI Wingman. Send \"connect\" to start Gemini Live API."],
        closedImmediately := false, session := some initSession }

/-- C6: with the API-key environment variable absent, session setup fails
immediately: exactly one event is sent and it is a configuration-error
event, the client connection is closed, no session (hence no upstream
connection) is ever created, and no mock text/audio is substituted. -/
theorem c6_missing_key :
    acceptConnection none =
      { events := [ClientEvent.error "Server configuration error: Missing Gemini API key"],
        closedImmediately := true, session := none } ∧
    (acceptConnection none).events.length = 1 ∧
    (acceptConnection none).session = none ∧
    ((acceptConnection none).events.all fun e =>
      match e with
      | ClientEvent.error _ => true
      | _ => false) = true := by
  exact ⟨rfl, rfl, rfl, rfl⟩

/-! ## Concrete traces for the temporal claims -/

/-- Upstream closes unexpectedly (client still open, reconnect timer armed),
then the client disconnects, then the pending timer fires. -/
def orphanTrace : List Ev :=
  [Ev.client ClientMsg.connect, Ev.geminiOpen 0, Ev.geminiClose 0 1006, Ev.clientClose,
   Ev.reconnectFire]

/-- C2 (code bug evidence): the trace is reachable (every event enabled),
and after it the client connection is closed yet a fresh upstream socket
(id 1) has been created by the reconnect timer and is live — the
`clientWs.on("close")` handler clears no pending reconnect timer, so a
torn-down session acquires a new upstream connection. -/
theorem c2_reconnect_after_teardown :
    enabledRunB initSession orphanTrace = true ∧
    (runEvents initSession orphanTrace).clientOpen = false ∧
    (runEvents initSession orphanTrace).created = 2 ∧
    liveUpstreams (runEvents initSession orphanTrace) = [1] := by
  decide

/-- Connect and let upstream socket 0 open. -/
def connectedTrace : List Ev := [Ev.client ClientMsg.connect, Ev.geminiOpen 0]

/-- Counterexample to C3 as stated: from the reachable connected state, an
upstream close with the normal code 1000 still schedules a reconnect
(`handleGeminiClose` never inspects the close code and keeps no attempt
counter), contradicting "on a normal close (code 1000) no reconnect is
scheduled". -/
theorem c3_counterexample :
    enabledRunB initSession connectedTrace = true ∧
    (runEvents initSession connectedTrace).isGeminiConnected = true ∧
    (stepEv (runEvents initSession connectedTrace) (Ev.geminiClose 0 1000)).1.reconnectPending
      = true := by
  decide

/-- Two `connect` requests while the first upstream connection attempt is
still pending, then both sockets open. -/
def doubleConnectTrace : List Ev :=
  [Ev.client ClientMsg.connect, Ev.client ClientMsg.connect, Ev.geminiOpen 0, Ev.geminiOpen 1]

/-- Counterexample to C7 as stated: the trace is reachable (the guard
`!isGeminiConnected` does not cover a pending, not-yet-open connection), and
after it two upstream sockets have been created and opened and neither is
ever closed — the session holds two upstream connections at once. -/
theorem c7_counterexample :
    enabledRunB initSession doubleConnectTrace = true ∧
    (liveUpstreams (runEvents initSession doubleConnectTrace)).length = 2 ∧
    (runEvents initSession doubleConnectTrace).openSet.length = 2 ∧
    (runEvents initSession doubleConnectTrace).closedSet = [] := by
  decide

/-! ## Single-upstream invariant on races-free traces -/

/-- Events that run `connectToGemini` and hence create an upstream socket. -/
def createsUpstream (s : ServerState) (e : Ev) : Bool :=
  match e with
  | Ev.client ClientMsg.connect => !s.isGeminiConnected
  | Ev.reconnectFire => true
  | _ => false

/-- The trace never runs `connectToGemini` while an earlier upstream socket
is still live (created and not closed). -/
def calmRunB (s : ServerState) : List Ev → Bool
  | [] => true
  | e :: es =>
      (!(createsUpstream s e) || decide ((liveUpstreams s).length = 0)) &&
        calmRunB (stepEv s e).1 es

theorem filter_length_mono {α : Type} (xs : List α) (p q : α → Bool)
    (h : ∀ a, p a = true → q a = true) :
    (xs.filter p).length ≤ (xs.filter q).length := by
  induction xs with
  | nil => simp
  | cons x xs ih =>
      by_cases hp : p x = true
      · rw [List.filter_cons_of_pos hp, List.filter_cons_of_pos (h x hp)]
        simpa using ih
      · rw [List.filter_cons_of_neg (by simpa using hp)]
        by_cases hq : q x = true
        · rw [List.filter_cons_of_pos hq]
          exact le_trans ih (by simp)
        · rw [List.filter_cons_of_neg (by simpa using hq)]
          exact ih

theorem contains_insert_of_contains (l : List Nat) (i a : Nat) (h : l.contains a = true) :
    (l.insert i).contains a = true := by
  unfold List.insert
  split
  · exact h
  · simp only [List.contains_cons, h, Bool.or_true]

theorem liveUpstreams_congr (s s' : ServerState) (h1 : s'.created = s.created)
    (h2 : s'.closedSet = s.closedSet) : liveUpstreams s' = liveUpstreams s := by
  unfold liveUpstreams
  rw [h1, h2]

theorem live_le_of_congr {s s' : ServerState} (h1 : s'.created = s.created)
    (h2 : s'.closedSet = s.closedSet) (hinv : (liveUpstreams s).length ≤ 1) :
    (liveUpstreams s').length ≤ 1 := by
  rw [liveUpstreams_congr s s' h1 h2]
  exact hinv

/-- Creating one upstream socket raises the live count by at most one. -/
theorem live_create_le (s : ServerState) :
    (liveUpstreams (connectToGemini s).1).length ≤ (liveUpstreams s).length + 1 := by
  unfold connectToGemini liveUpstreams
  simp only [List.range_succ, List.filter_append, List.length_append]
  have : ((List.range s.created).filter
      (fun i => !(s.closedSet.contains i))).length +
      ([s.created].filter (fun i => !(s.closedSet.contains i))).length ≤
      ((List.range s.created).filter (fun i => !(s.closedSet.contains i))).length + 1 := by
    have hle : ([s.created].filter (fun i => !(s.closedSet.contains i))).length ≤ 1 := by
      by_cases hc : s.created ∈ s.closedSet <;> simp [hc]
    omega
  exact this

/-- Marking one socket closed never raises the live count. -/
theorem live_close_le (s : ServerState) (i : Nat) (s' : ServerState)
    (h1 : s'.created = s.created) (h2 : s'.closedSet = s.closedSet.insert i) :
    (liveUpstreams s').length ≤ (liveUpstreams s).length := by
  unfold liveUpstreams
  rw [h1, h2]
  refine filter_length_mono _ _ _ ?_
  intro a ha
  by_cases hc : s.closedSet.contains a = true
  · have hcontra := contains_insert_of_contains s.closedSet i a hc
    rw [Bool.not_eq_true'] at ha
    rw [ha] at hcontra
    cases hcontra
  · rw [Bool.not_eq_true']
    simpa using hc

theorem handleClientAudioData_fst (s : ServerState) (bytes : List Nat) :
    (handleClientAudioData s bytes).1 = s := by
  unfold handleClientAudioData
  split
  · split <;> rfl
  · rfl

theorem sendTextToGemini_live (s : ServerState) (t : String) :
    liveUpstreams (sendTextToGemini s t).1 = liveUpstreams s := by
  unfold sendTextToGemini
  split <;> exact liveUpstreams_congr _ _ rfl rfl

/-- One step preserves the at-most-one-live-upstream invariant, provided any
socket-creating event runs with no live upstream. -/
theorem live_step_le (s : ServerState) (e : Ev)
    (hcalm : createsUpstream s e = true → (liveUpstreams s).length = 0)
    (hinv : (liveUpstreams s).length ≤ 1) :
    (liveUpstreams (stepEv s e).1).length ≤ 1 := by
  cases e with
  | client m =>
      cases m with
      | binary bytes =>
          simp only [stepEv, stepClientMsg]
          split
          · rw [handleClientAudioData_fst]; exact hinv
          · exact hinv
      | connect =>
          simp only [stepEv, stepClientMsg]
          split
          · rename_i hconn
            have h0 : (liveUpstreams s).length = 0 := by
              apply hcalm
              simp only [createsUpstream]
              simpa using hconn
            calc (liveUpstreams (connectToGemini s).1).length
                ≤ (liveUpstreams s).length + 1 := live_create_le s
              _ ≤ 1 := by omega
          · exact hinv
      | audioJson d =>
          cases d with
          | some arr =>
              simp only [stepEv, stepClientMsg]
              rw [handleClientAudioData_fst]; exact hinv
          | none => exact hinv
      | textJson d =>
          cases d with
          | some t =>
              simp only [stepEv, stepClientMsg]
              split
              · rw [sendTextToGemini_live]; exact hinv
              · exact hinv
          | none => exact hinv
      | other => exact hinv
  | geminiOpen i =>
      simp only [stepEv]
      split <;> exact live_le_of_congr rfl rfl hinv
  | geminiClose i code =>
      simp only [stepEv]
      split
      · exact le_trans (live_close_le s i _ rfl rfl) hinv
      · exact le_trans (live_close_le s i _ rfl rfl) hinv
  | geminiError =>
      simp only [stepEv]
      exact live_le_of_congr rfl rfl hinv
  | clientClose =>
      simp only [stepEv]
      split
      · split
        · rename_i w hw
          exact le_trans (live_close_le s w _ rfl rfl) hinv
        · exact live_le_of_congr rfl rfl hinv
      · exact live_le_of_congr rfl rfl hinv
  | reconnectFire =>
      simp only [stepEv]
      have h0 : (liveUpstreams s).length = 0 := hcalm rfl
      have heq : liveUpstreams { s with reconnectPending := false } = liveUpstreams s :=
        liveUpstreams_congr _ s rfl rfl
      calc (liveUpstreams (connectToGemini { s with reconnectPending := false }).1).length
          ≤ (liveUpstreams { s with reconnectPending := false }).length + 1 :=
            live_create_le _
        _ ≤ 1 := by rw [heq]; omega

theorem calm_invariant : ∀ (evs : List Ev) (s : ServerState),
    (liveUpstreams s).length ≤ 1 → calmRunB s evs = true →
    (liveUpstreams (runEvents s evs)).length ≤ 1
  | [], _, hinv, _ => hinv
  | e :: es, s, hinv, hcalm => by
      simp only [calmRunB, Bool.and_eq_true, Bool.or_eq_true, Bool.not_eq_true',
        decide_eq_true_eq] at hcalm
      refine calm_invariant es _ (live_step_le s e ?_ hinv) hcalm.2
      intro hc
      rcases hcalm.1 with h | h
      · rw [hc] at h; cases h
      · exact h

/-- C7 (amended): a `connect` request while already upstream-connected is a
no-op on the upstream side — the state (in particular the set of created
sockets) is unchanged and the relay replies with a status event — and on
every trace in which `connectToGemini` only runs when the session has no
live upstream socket, the session holds at most one live upstream connection
at all times.  (Without that proviso the invariant fails, see the
counterexample: a `connect` during a still-pending connection attempt
creates a second, never-closed upstream socket.) -/
theorem c7_single_upstream_amended :
    (∀ s : ServerState, s.isGeminiConnected = true →
      stepClientMsg s ClientMsg.connect =
        (s, [Out.clientEvent (ClientEvent.status "Already connected to Gemini")])) ∧
    (∀ evs : List Ev, calmRunB initSession evs = true →
      (liveUpstreams (runEvents initSession evs)).length ≤ 1) := by
  constructor
  · intro s hs
    simp [stepClientMsg, hs]
  · intro evs h
    exact calm_invariant evs initSession (by decide) h

/-- Witness for C7 (amended): the connected no-op at a concrete state, and
the invariant along a concrete calm trace. -/
theorem c7_single_upstream_amended_witness :
    stepClientMsg { initSession with isGeminiConnected := true } ClientMsg.connect =
      ({ initSession with isGeminiConnected := true },
        [Out.clientEvent (ClientEvent.status "Already connected to Gemini")]) ∧
    (liveUpstreams (runEvents initSession connectedTrace)).length ≤ 1 :=
  ⟨c7_single_upstream_amended.1 { initSession with isGeminiConnected := true } rfl,
   c7_single_upstream_amended.2 connectedTrace (by decide)⟩

/-! ## Browser-side reconnect policy (`LiveChatClient`, src/lib/websocket-client.js)

    this.reconnectAttempts = 0
    this.maxReconnectAttempts = 3
    this.reconnectDelay = 2000
    ...
    this.ws.onopen = () => { ... this.reconnectAttempts = 0 ... }
    this.ws.onclose = (event) => {
      ...
      if (event.code !== 1000 && this.reconnectAttempts < this.maxReconnectAttempts) {
        this.reconnectAttempts++
        setTimeout(() => { this.connectWebSocket() ... }, this.reconnectDelay)
      }
    }

`wsOnClose` returns the new state together with the list of reconnect timers
scheduled by the handler (their delays in milliseconds). -/

structure LiveChatState where
  isConnected : Bool
  isGeminiConnected : Bool
  reconnectAttempts : Nat
  deriving DecidableEq

def maxReconnectAttempts : Nat := 3

def reconnectDelay : Nat := 2000

def wsOnOpen (st : LiveChatState) : LiveChatState :=
  { st with isConnected := true, reconnectAttempts := 0 }

def wsOnClose (st : LiveChatState) (code : Nat) : LiveChatState × List Nat :=
  let st1 : LiveChatState :=
    { st with isConnected := false, isGeminiConnected := false }
  if code ≠ 1000 ∧ st.reconnectAttempts < maxReconnectAttempts then
    ({ st1 with reconnectAttempts := st.reconnectAttempts + 1 }, [reconnectDelay])
  else (st1, [])

/-- Total number of reconnects scheduled along a run of consecutive close
events with no intervening successful open. -/
def closesScheduled (st : LiveChatState) : List Nat → Nat
  | [] => 0
  | c :: cs => (wsOnClose st c).2.length + closesScheduled (wsOnClose st c).1 cs

theorem closesScheduled_le : ∀ (codes : List Nat) (st : LiveChatState),
    closesScheduled st codes ≤ maxReconnectAttempts - st.reconnectAttempts
  | [], _ => by simp [closesScheduled]
  | c :: cs, st => by
      have ih1 := closesScheduled_le cs (wsOnClose st c).1
      simp only [closesScheduled]
      unfold wsOnClose at ih1 ⊢
      split at ih1 <;> rename_i hcond
      · rw [if_pos hcond]
        simp only [List.length_cons, List.length_nil] at ih1 ⊢
        have : st.reconnectAttempts < maxReconnectAttempts := hcond.2
        omega
      · rw [if_neg hcond]
        simp only [List.length_nil] at ih1 ⊢
        omega

/-- Counterexample-side helper state: the server session after the reachable
trace `connectedTrace`. -/
def connectedSession : ServerState := runEvents initSession connectedTrace

/-- C3 (amended): for the browser-side proxy connection, a close with a
non-1000 code while fewer than `maxReconnectAttempts` attempts have been
made schedules exactly one reconnect after the fixed `reconnectDelay` and
increments the attempt counter; a close with the normal code 1000 schedules
none and leaves the counter unchanged; any run of consecutive closes without
an intervening successful open schedules at most
`maxReconnectAttempts - reconnectAttempts` reconnects; a successful open
resets the counter to zero.  For the server's upstream connection, a close
while the client socket is open schedules one reconnect after a fixed delay
regardless of the close code — including code 1000 — and without any
attempt bound. -/
theorem c3_reconnect_amended :
    (∀ (st : LiveChatState) (code : Nat), code ≠ 1000 →
      st.reconnectAttempts < maxReconnectAttempts →
      wsOnClose st code =
        ({ isConnected := false, isGeminiConnected := false,
           reconnectAttempts := st.reconnectAttempts + 1 }, [reconnectDelay])) ∧
    (∀ st : LiveChatState,
      (wsOnClose st 1000).2 = [] ∧
      (wsOnClose st 1000).1.reconnectAttempts = st.reconnectAttempts) ∧
    (∀ (st : LiveChatState) (codes : List Nat),
      closesScheduled st codes ≤ maxReconnectAttempts - st.reconnectAttempts) ∧
    (∀ st : LiveChatState, (wsOnOpen st).reconnectAttempts = 0) ∧
    (∀ (s : ServerState) (i code : Nat), s.clientOpen = true →
      (stepEv s (Ev.geminiClose i code)).1.reconnectPending = true) := by
    refine ⟨?_, ?_, ?_, ?_, ?_⟩
    · intro st code hc ha
      unfold wsOnClose
      rw [if_pos ⟨hc, ha⟩]
    · intro st
      unfold wsOnClose
      rw [if_neg (by simp)]
      exact ⟨rfl, rfl⟩
    · intro st codes
      exact closesScheduled_le codes st
    · intro st
      rfl
    · intro s i code hopen
      simp only [stepEv]
      rw [if_pos hopen]

/-- Witness for C3 (amended) at concrete states, codes and traces. -/
theorem c3_reconnect_amended_witness :
    wsOnClose { isConnected := true, isGeminiConnected := true, reconnectAttempts := 0 } 1006 =
      ({ isConnected := false, isGeminiConnected := false, reconnectAttempts := 1 },
        [reconnectDelay]) ∧
    (wsOnClose { isConnected := true, isGeminiConnected := true, reconnectAttempts := 2 } 1000).2
      = [] ∧
    closesScheduled { isConnected := true, isGeminiConnected := true, reconnectAttempts := 0 }
      [1006, 1006, 1006, 1006, 1006] ≤ maxReconnectAttempts - 0 ∧
    (stepEv connectedSession (Ev.geminiClose 0 1000)).1.reconnectPending = true :=
  ⟨c3_reconnect_amended.1 _ 1006 (by decide) (by decide),
   (c3_reconnect_amended.2.1 _).1,
   c3_reconnect_amended.2.2.1 _ [1006, 1006, 1006, 1006, 1006],
   c3_reconnect_amended.2.2.2.2 connectedSession 0 1000 (by decide)⟩

end Relay
